import Mathlib

/-!
Shallow embedding of `src/wallets.js` (the `Wallets` accessor of the BitGoJS
client): the wallet share acceptance protocol (`acceptShare`), 2-of-3 wallet
provisioning (`createWalletWithKeychains`) and advanced wallet registration
(`add`).

Modelling conventions:
* The external collaborators reached through the `bitgo` context object
  (share fetch, ECDH sharing keychain fetch, symmetric cipher, BIP32
  parsing/derivation, ECDH secret computation, keychain registration and the
  wallet/share POST endpoints) are oracle functions collected in an `Env`
  record.  They are exactly the calls the source makes on `this.bitgo` /
  `this.bitgo.keychains()`; their bodies live outside the analysed file.
* Each operation returns `Except Err A × List NetCall`: the settled value of
  the promise chain together with the ordered trace of network requests that
  were issued before the chain settled.  GET requests and POST requests are
  distinct `NetCall` constructors so that "mutating" effects are observable.
* JavaScript truthiness on optional strings (`if (!params.userPassword)`,
  `params.newWalletPassphrase || params.userPassword`, ...) is modelled by
  `jsTruthy`: an absent value and the empty string are falsy.
* Extended keys and EC keys are opaque handles (strings) threaded through the
  oracle functions, since only dataflow and failure propagation of those
  collaborators matter here.
-/

namespace Wallets

/-- JavaScript truthiness of an optional string value: `undefined` and the
empty string are falsy, every other string is truthy. -/
def jsTruthy : Option String → Bool
  | some s => s != ""
  | none => false

/-- JavaScript `s.split(",")` on the character list: splitting never returns
an empty list, and empty components are kept (source line 93). -/
def splitCommaChars : List Char → List (List Char)
  | [] => [[]]
  | c :: rest =>
    let r := splitCommaChars rest
    if c = ',' then [] :: r
    else
      match r with
      | [] => [[c]]
      | g :: gs => (c :: g) :: gs

/-- JavaScript `s.split(",")` (source line 93: `walletShare.permissions.split(",")`). -/
def splitComma (s : String) : List String :=
  (splitCommaChars s.data).map fun cs => String.mk cs

/-- Errors: the `throw new Error(...)` sites of `wallets.js` (named after the
spec taxonomy of section 7) plus opaque failures coming back from the
collaborators. -/
inductive Err where
  /-- Source line 101: userPassword param must be provided to decrypt shared key. -/
  | missingCredential
  /-- Source line 107: EncryptedXprv was not found on sharing keychain. -/
  | noEncryptedXprv
  /-- Source line 269: invalid argument. -/
  | invalidArgument
  /-- Source line 274: unsupported multi-sig type. -/
  | unsupportedMultisig
  /-- A failure produced by one of the collaborators behind the bitgo context. -/
  | collaborator (msg : String)
  deriving DecidableEq, Repr

/-- Spec section 7 error taxonomy: the generic `InvalidArgumentError` covers
malformed caller input, explicitly including the unsupported m/n combination
rejected by `add`. -/
def isInvalidArgumentError : Err → Prop
  | Err.invalidArgument => True
  | Err.unsupportedMultisig => True
  | _ => False

/-- The keychain record carried inside a wallet share
(`walletShare.keychain`, source lines 114-118). -/
structure ShareKeychain where
  path : String
  fromPubKey : String
  encryptedXprv : String
  deriving DecidableEq, Repr

/-- A wallet share record as returned by the share-fetch collaborator. -/
structure WalletShare where
  permissions : String
  keychain : ShareKeychain
  deriving DecidableEq, Repr

/-- The recipient ECDH sharing keychain returned by
`bitgo.getECDHSharingKeychain()` (source lines 104-108); its
`encryptedXprv` may be absent. -/
structure SharingKeychain where
  encryptedXprv : Option String
  deriving DecidableEq, Repr

/-- Parameters of `acceptShare` (source lines 78-86). -/
structure AcceptShareParams where
  walletShareId : String
  userPassword : Option String := none
  newWalletPassphrase : Option String := none
  deriving DecidableEq, Repr

/-- The body POSTed to `/walletshare/:id` (source lines 129-135): always
`state: accepted`, with `encryptedXprv` attached only when the closure
variable was set to a truthy value. -/
structure SharePostBody where
  state : String
  encryptedXprv : Option String
  deriving DecidableEq, Repr

/-- A locally generated key pair, as produced by `bitgo.keychains().create()`. -/
structure FreshKey where
  xpub : String
  xprv : String
  deriving DecidableEq, Repr

/-- A keychain record (user / backup / service role).  Absent fields are
`none`: a backup keychain built from a supplied `backupXpub` has no private
component at all (source line 201). -/
structure Keychain where
  xpub : Option String
  xprv : Option String := none
  encryptedXprv : Option String := none
  deriving DecidableEq, Repr

/-- The body of a keychain registration call (`key1Params`/`key2Params`,
source lines 209-218).  Note the source object literals carry only `xpub`
and (for the user keychain) `encryptedXprv`; there is no `xprv` field. -/
structure KeyParams where
  xpub : Option String
  encryptedXprv : Option String := none
  deriving DecidableEq, Repr

/-- A caller-supplied keychain entry of `add`'s `params.keychains`; the
caller may include private fields, which the source strips (line 278). -/
structure KeychainIn where
  xpub : Option String := none
  xprv : Option String := none
  encryptedXprv : Option String := none
  deriving DecidableEq, Repr

/-- A keychain entry as transmitted by `add`: the object literal
`\x7b xpub: k.xpub \x7d` of source line 278 has exactly one field. -/
structure SentKeychain where
  xpub : Option String
  deriving DecidableEq, Repr

/-- Parameters of `add` (source lines 258-265).  The embedding types
`keychains` as a list and `m`, `n` as numbers, so the dynamic
`Array.isArray`/`typeof` guard of source lines 267-270 passes by
construction and only the multisig-type check remains. -/
structure AddParams where
  label : Option String := none
  m : Int
  n : Int
  keychains : List KeychainIn
  enterprise : Option String := none
  deriving DecidableEq, Repr

/-- The body POSTed to `/wallet` (source lines 279-288). -/
structure WalletPostBody where
  label : Option String
  m : Int
  n : Int
  keychains : List SentKeychain
  enterprise : Option String
  deriving DecidableEq, Repr

/-- The wallet model object built from the server response
(`new Wallet(self.bitgo, body)`, source line 294); the body is opaque here. -/
structure Wallet where
  body : String
  deriving DecidableEq, Repr

/-- Parameters of `createWalletWithKeychains` (source lines 177-192);
`passphrase` is required by `validateParams`, the rest optional. -/
structure CreateWalletParams where
  passphrase : String
  label : Option String := none
  backupXpub : Option String := none
  enterprise : Option String := none
  deriving DecidableEq, Repr

/-- The composed result of `createWalletWithKeychains` (source lines 242-250). -/
structure CreateWalletResult where
  wallet : Wallet
  userKeychain : Keychain
  backupKeychain : Keychain
  bitgoKeychain : Keychain
  warning : String
  deriving DecidableEq, Repr

/-- A network request issued by the operations of `wallets.js`.  GET requests
(`getShareCall`, `getSharingKeychainCall`) read remote state; the POST
requests mutate it. -/
inductive NetCall where
  /-- GET `/walletshare/:id` (via `getShare`, source line 91). -/
  | getShareCall (walletShareId : String)
  /-- GET of the recipient ECDH sharing keychain (source line 104). -/
  | getSharingKeychainCall
  /-- POST `/walletshare/:id` share finalization (source lines 137-138). -/
  | postShare (walletShareId : String) (body : SharePostBody)
  /-- Keychain registration `bitgo.keychains().add` (source lines 214, 219). -/
  | addKeychain (body : KeyParams)
  /-- Service keychain creation `bitgo.keychains().createBitGo()` (source line 222). -/
  | createBitGoKeychain
  /-- POST `/wallet` (source lines 290-291). -/
  | postWallet (body : WalletPostBody)
  deriving DecidableEq, Repr

/-- Whether a network call mutates remote state: every POST does, the two
GETs do not. -/
def NetCall.isMutating : NetCall → Bool
  | .getShareCall _ => false
  | .getSharingKeychainCall => false
  | .postShare _ _ => true
  | .addKeychain _ => true
  | .createBitGoKeychain => true
  | .postWallet _ => true

/-- The collaborators reached through the `bitgo` context object, as oracle
functions.  Randomness of local key generation is an oracle too: `fresh i`
is the key pair returned by the i-th `bitgo.keychains().create()` call. -/
structure Env where
  /-- Response of GET `/walletshare/:id`. -/
  shares : String → Except Err WalletShare
  /-- Response of `bitgo.getECDHSharingKeychain()`. -/
  sharingKeychain : Except Err SharingKeychain
  /-- Cipher `bitgo.decrypt(\x7bpassword, input\x7d)`: fails on a wrong password. -/
  decrypt : String → String → Except Err String
  /-- Cipher `bitgo.encrypt(\x7bpassword, input\x7d)`: total, fresh salt folded in. -/
  encrypt : String → String → String
  /-- Parsing `new BIP32(xprv)`: fails on a malformed serialized key. -/
  parseBIP32 : String → Except Err String
  /-- Derivation `rootExtKey.derive(path)` followed by taking `.eckey`. -/
  derivePath : String → String → Except Err String
  /-- Secret computation `bitgo.getECDHSecret(\x7beckey, otherPubKeyHex\x7d)`: fails on an invalid curve point. -/
  ecdhSecret : String → String → Except Err String
  /-- Response of POST `/walletshare/:id`. -/
  postShareResp : String → SharePostBody → Except Err String
  /-- Response of `bitgo.keychains().add(...)`. -/
  addKeychainResp : KeyParams → Except Err Keychain
  /-- Response of `bitgo.keychains().createBitGo()`. -/
  createBitGoResp : Except Err Keychain
  /-- Response of POST `/wallet`. -/
  postWalletResp : WalletPostBody → Except Err String
  /-- Local key generation, indexed by call order inside one operation. -/
  fresh : Nat → FreshKey

/-- Source line 121: `params.newWalletPassphrase || params.userPassword`
(JavaScript `||` takes the first truthy operand). -/
def reencryptPassword (params : AcceptShareParams) : String :=
  if jsTruthy params.newWalletPassphrase then params.newWalletPassphrase.getD ""
  else params.userPassword.getD ""

/-- The first `.then` block of `acceptShare` (source lines 91-127): fetch the
share, short-circuit for view-only shares, otherwise decrypt the sharing
keychain, derive the per-relationship key, compute the ECDH secret, decrypt
the shared wallet xprv and re-encrypt it.  Returns the value of the closure
variable `encryptedSharedWalletXprv` (`none` when it was never assigned)
together with the trace of network requests issued so far. -/
def acceptShareCompute (env : Env) (params : AcceptShareParams) :
    Except Err (Option String) × List NetCall :=
  match env.shares params.walletShareId with
  | .error e => (.error e, [NetCall.getShareCall params.walletShareId])
  | .ok walletShare =>
    if (splitComma walletShare.permissions).length == 1
        && (splitComma walletShare.permissions).contains "view" then
      (.ok none, [NetCall.getShareCall params.walletShareId])
    else if !(jsTruthy params.userPassword) then
      (.error .missingCredential, [NetCall.getShareCall params.walletShareId])
    else
      match env.sharingKeychain with
      | .error e =>
        (.error e, [NetCall.getShareCall params.walletShareId, NetCall.getSharingKeychainCall])
      | .ok sharingKeychain =>
        if !(jsTruthy sharingKeychain.encryptedXprv) then
          (.error .noEncryptedXprv,
           [NetCall.getShareCall params.walletShareId, NetCall.getSharingKeychainCall])
        else
          match env.decrypt (params.userPassword.getD "") (sharingKeychain.encryptedXprv.getD "") with
          | .error e =>
            (.error e, [NetCall.getShareCall params.walletShareId, NetCall.getSharingKeychainCall])
          | .ok xprv =>
            match env.parseBIP32 xprv with
            | .error e =>
              (.error e, [NetCall.getShareCall params.walletShareId, NetCall.getSharingKeychainCall])
            | .ok rootExtKey =>
              match env.derivePath rootExtKey walletShare.keychain.path with
              | .error e =>
                (.error e, [NetCall.getShareCall params.walletShareId, NetCall.getSharingKeychainCall])
              | .ok extKey =>
                match env.ecdhSecret extKey walletShare.keychain.fromPubKey with
                | .error e =>
                  (.error e, [NetCall.getShareCall params.walletShareId, NetCall.getSharingKeychainCall])
                | .ok secret =>
                  match env.decrypt secret walletShare.keychain.encryptedXprv with
                  | .error e =>
                    (.error e, [NetCall.getShareCall params.walletShareId, NetCall.getSharingKeychainCall])
                  | .ok decryptedSharedWalletXprv =>
                    (.ok (some (env.encrypt (reencryptPassword params) decryptedSharedWalletXprv)),
                     [NetCall.getShareCall params.walletShareId, NetCall.getSharingKeychainCall])

/-- Operation `Wallets.prototype.acceptShare` (source lines 84-145): run the
compute/decrypt/re-encrypt stage, then POST the acceptance with
`state: accepted`, attaching `encryptedXprv` only when the closure variable
holds a truthy value (source lines 128-143). -/
def acceptShare (env : Env) (params : AcceptShareParams) :
    Except Err String × List NetCall :=
  match acceptShareCompute env params with
  | (.error e, t) => (.error e, t)
  | (.ok encryptedSharedWalletXprv, t) =>
    let postBody : SharePostBody :=
      { state := "accepted"
        encryptedXprv :=
          if jsTruthy encryptedSharedWalletXprv then encryptedSharedWalletXprv else none }
    (env.postShareResp params.walletShareId postBody,
     t ++ [NetCall.postShare params.walletShareId postBody])

/-- Operation `Wallets.prototype.add` (source lines 263-297).  With the typed
parameters the `Array.isArray`/`typeof` guard (lines 267-270) always
passes; the multisig-type check of lines 273-275 then rejects everything
but m=2, n=3 before any request is issued.  Each keychain entry is reduced
to its `xpub` field (line 278) and the wallet parameters are POSTed to
`/wallet`. -/
def add (env : Env) (params : AddParams) : Except Err Wallet × List NetCall :=
  if params.m != 2 || params.n != 3 then
    (.error .unsupportedMultisig, [])
  else
    let walletParams : WalletPostBody :=
      { label := params.label
        m := params.m
        n := params.n
        keychains := params.keychains.map fun k => { xpub := k.xpub }
        enterprise := if jsTruthy params.enterprise then params.enterprise else none }
    ((env.postWalletResp walletParams).map Wallet.mk, [NetCall.postWallet walletParams])

/-- Source lines 198-199: the locally created user keychain, with its xprv
encrypted under the supplied passphrase. -/
def mkUserKeychain (env : Env) (params : CreateWalletParams) : Keychain :=
  { xpub := some (env.fresh 0).xpub
    xprv := some (env.fresh 0).xprv
    encryptedXprv := some (env.encrypt params.passphrase (env.fresh 0).xprv) }

/-- Source lines 201-204: the backup keychain is the caller-supplied xpub
alone when `backupXpub` is truthy, otherwise a second locally created key
pair. -/
def mkBackupKeychain (env : Env) (params : CreateWalletParams) : Keychain :=
  if jsTruthy params.backupXpub then
    { xpub := params.backupXpub, xprv := none, encryptedXprv := none }
  else
    { xpub := some (env.fresh 1).xpub, xprv := some (env.fresh 1).xprv, encryptedXprv := none }

/-- Source lines 209-212: registration body of the user keychain (xpub plus
encrypted xprv; no plaintext xprv field exists in the literal). -/
def key1Params (env : Env) (params : CreateWalletParams) : KeyParams :=
  { xpub := (mkUserKeychain env params).xpub
    encryptedXprv := (mkUserKeychain env params).encryptedXprv }

/-- Source lines 216-218: registration body of the backup keychain (xpub
only). -/
def key2Params (env : Env) (params : CreateWalletParams) : KeyParams :=
  { xpub := (mkBackupKeychain env params).xpub }

/-- Source lines 226-238: the wallet parameters handed to `self.add`. -/
def walletParamsOf (env : Env) (params : CreateWalletParams) (bitgoKeychain : Keychain) :
    AddParams :=
  { label := params.label
    m := 2
    n := 3
    keychains :=
      [ { xpub := (mkUserKeychain env params).xpub },
        { xpub := (mkBackupKeychain env params).xpub },
        { xpub := bitgoKeychain.xpub } ]
    enterprise := if jsTruthy params.enterprise then params.enterprise else none }

/-- Operation `Wallets.prototype.createWalletWithKeychains` (source lines 190-252):
register the user keychain, then the backup keychain, then create the
service keychain, then create the wallet through `add`, and finally compose
the result object.  Every step is gated on the success of the previous one;
the request of a step appears in the trace even when its response is an
error. -/
def createWalletWithKeychains (env : Env) (params : CreateWalletParams) :
    Except Err CreateWalletResult × List NetCall :=
  match env.addKeychainResp (key1Params env params) with
  | .error e => (.error e, [NetCall.addKeychain (key1Params env params)])
  | .ok _ =>
    match env.addKeychainResp (key2Params env params) with
    | .error e =>
      (.error e,
       [NetCall.addKeychain (key1Params env params), NetCall.addKeychain (key2Params env params)])
    | .ok _ =>
      match env.createBitGoResp with
      | .error e =>
        (.error e,
         [NetCall.addKeychain (key1Params env params), NetCall.addKeychain (key2Params env params),
          NetCall.createBitGoKeychain])
      | .ok bitgoKeychain =>
        match add env (walletParamsOf env params bitgoKeychain) with
        | (.error e, ta) =>
          (.error e,
           [NetCall.addKeychain (key1Params env params), NetCall.addKeychain (key2Params env params),
            NetCall.createBitGoKeychain] ++ ta)
        | (.ok w, ta) =>
          (.ok { wallet := w
                 userKeychain := mkUserKeychain env params
                 backupKeychain := mkBackupKeychain env params
                 bitgoKeychain := bitgoKeychain
                 warning := "Be sure to backup the backup keychain -- it is not stored anywhere else!" },
           [NetCall.addKeychain (key1Params env params), NetCall.addKeychain (key2Params env params),
            NetCall.createBitGoKeychain] ++ ta)

/-- Replace the xprv component of the locally generated backup key pair
(the second `create()` call) while keeping everything else of the
environment fixed; used to state that the emitted network traffic does not
depend on that private component. -/
def withFreshBackupXprv (env : Env) (v : String) : Env :=
  { env with
    fresh := fun i => if i = 1 then { xpub := (env.fresh 1).xpub, xprv := v } else env.fresh i }

/-! Concrete collaborator environments used to exercise the theorems below
on closed inputs. -/

/-- A share granting only the view capability. -/
def viewShare : WalletShare :=
  { permissions := "view"
    keychain := { path := "m/0/0", fromPubKey := "03aa", encryptedXprv := "encWX" } }

/-- A share granting spend and view capabilities. -/
def spendShare : WalletShare :=
  { permissions := "spend,view"
    keychain := { path := "m/0/0", fromPubKey := "03aa", encryptedXprv := "encWX" } }

/-- A concrete collaborator environment: registrations and POSTs succeed,
encryption is a visible tagging scheme, decryption fails (individual tests
override the pieces they need). -/
def baseEnv : Env :=
  { shares := fun _ => .error (.collaborator "not found")
    sharingKeychain := .ok { encryptedXprv := some "encSX" }
    decrypt := fun _ _ => .error (.collaborator "bad password")
    encrypt := fun p i => "E|" ++ p ++ "|" ++ i
    parseBIP32 := fun s => .ok s
    derivePath := fun k p => .ok (k ++ "/" ++ p)
    ecdhSecret := fun _ _ => .ok "SECRET"
    postShareResp := fun _ _ => .ok "finalized"
    addKeychainResp := fun _ => .ok { xpub := none }
    createBitGoResp := .ok { xpub := some "bgxpub" }
    postWalletResp := fun _ => .ok "walletBody"
    fresh := fun i => if i = 0 then { xpub := "uxpub", xprv := "uxprv" }
             else { xpub := "bxpub", xprv := "bxprv" } }

/-- Environment in which the share with id ws1 resolves to the given share. -/
def envWithShare (ws : WalletShare) : Env :=
  { baseEnv with
    shares := fun i => if i = "ws1" then .ok ws else .error (.collaborator "not found") }

/-- Environment whose cipher successfully runs the whole sharing pipeline:
the user password opens the sharing keychain and the ECDH secret opens the
shared wallet key. -/
def c8Env : Env :=
  { envWithShare spendShare with
    decrypt := fun p s =>
      if p = "up" && s = "encSX" then .ok "SX"
      else if p = "SECRET" && s = "encWX" then .ok "WX"
      else .error (.collaborator "bad password") }

/-- Acceptance parameters carrying both a user password and a new wallet
passphrase. -/
def c8Params : AcceptShareParams :=
  { walletShareId := "ws1", userPassword := some "up", newWalletPassphrase := some "np" }

/-- Environment whose cipher round-trips the user keychain encryption under
the passphrase used below. -/
def c7Env : Env :=
  { baseEnv with
    decrypt := fun p s =>
      if p = "p@ss" && s = "E|p@ss|uxprv" then .ok "uxprv"
      else .error (.collaborator "bad password") }

/-- The composed result of a successful wallet creation under `c7Env`. -/
def c7Res : CreateWalletResult :=
  { wallet := { body := "walletBody" }
    userKeychain := { xpub := some "uxpub", xprv := some "uxprv",
                      encryptedXprv := some "E|p@ss|uxprv" }
    backupKeychain := { xpub := some "bxpub", xprv := some "bxprv", encryptedXprv := none }
    bitgoKeychain := { xpub := some "bgxpub" }
    warning := "Be sure to backup the backup keychain -- it is not stored anywhere else!" }

/-- The composed result of a successful wallet creation under `baseEnv`
with passphrase p. -/
def c4Res : CreateWalletResult :=
  { wallet := { body := "walletBody" }
    userKeychain := { xpub := some "uxpub", xprv := some "uxprv",
                      encryptedXprv := some "E|p|uxprv" }
    backupKeychain := { xpub := some "bxpub", xprv := some "bxprv", encryptedXprv := none }
    bitgoKeychain := { xpub := some "bgxpub" }
    warning := "Be sure to backup the backup keychain -- it is not stored anywhere else!" }

/-- Wallet parameters whose keychain entry carries a plaintext private key
field in addition to its xpub. -/
def c9ParamsA : AddParams :=
  { m := 2, n := 3, keychains := [ { xpub := some "x1", xprv := some "SECRETKEY" } ] }

/-- The same wallet parameters with the private field stripped. -/
def c9ParamsB : AddParams :=
  { m := 2, n := 3, keychains := [ { xpub := some "x1" } ] }

/-! Helper lemmas shared by the claim theorems. -/

/-- The compute stage of acceptShare issues exactly the share-fetch GET,
optionally followed by the sharing-keychain GET; nothing else. -/
theorem acceptShareCompute_trace (env : Env) (params : AcceptShareParams) :
    (acceptShareCompute env params).2 = [NetCall.getShareCall params.walletShareId] ∨
    (acceptShareCompute env params).2 =
      [NetCall.getShareCall params.walletShareId, NetCall.getSharingKeychainCall] := by
  unfold acceptShareCompute
  repeat' split
  all_goals simp

/-- A blob returned by the compute stage of acceptShare is always the output
of the encrypt collaborator. -/
theorem acceptShareCompute_ok_some (env : Env) (params : AcceptShareParams) (b : String)
    (h : (acceptShareCompute env params).1 = .ok (some b)) :
    ∃ p d, b = env.encrypt p d := by
  unfold acceptShareCompute at h
  repeat' split at h
  all_goals simp_all
  exact ⟨_, _, h.symm⟩

/-- The compute stage of acceptShare makes no mutating network call. -/
theorem acceptShareCompute_readonly (env : Env) (params : AcceptShareParams) :
    (acceptShareCompute env params).2.filter NetCall.isMutating = [] := by
  rcases acceptShareCompute_trace env params with h | h <;> rw [h] <;> rfl

/-- Outputs of the tagging cipher of `baseEnv` are never empty. -/
theorem encE_ne_empty (p i : String) : "E|" ++ p ++ "|" ++ i ≠ "" := by
  intro h
  have h2 := congrArg String.data h
  simp [String.data_append] at h2

/-- With m=2, n=3 the guard of `add` passes and the trace is the single
wallet POST. -/
theorem add_trace_m2n3 (env : Env) (wp : AddParams) (hm : wp.m = 2) (hn : wp.n = 3) :
    (add env wp).2 =
      [NetCall.postWallet
        { label := wp.label, m := wp.m, n := wp.n,
          keychains := wp.keychains.map fun k => { xpub := k.xpub },
          enterprise := if jsTruthy wp.enterprise then wp.enterprise else none }] := by
  simp [add, hm, hn]

/-! Claim theorems. -/

/-- Claim C1: in every `acceptShare` run the decrypt/derive/re-encrypt stage
issues no remote-mutating call; if any of its steps fails the operation
stops with exactly the trace of that stage, so the finalize POST is never
issued and the share is left untouched; and the full trace is always the
read-only compute-stage requests, optionally followed by the single
finalize POST at the very end — the only mutating network effect of
`acceptShare`. -/
theorem acceptShare_mutations_confined (env : Env) (params : AcceptShareParams) :
    ((acceptShareCompute env params).2.filter NetCall.isMutating = []) ∧
    ((∃ e, (acceptShareCompute env params).1 = .error e) →
       (acceptShare env params).2 = (acceptShareCompute env params).2) ∧
    ((acceptShare env params).2 = (acceptShareCompute env params).2 ∨
       ∃ body, (acceptShare env params).2 =
         (acceptShareCompute env params).2 ++ [NetCall.postShare params.walletShareId body]) := by
  refine ⟨acceptShareCompute_readonly env params, ?_, ?_⟩
  · rintro ⟨e, he⟩
    rcases h : acceptShareCompute env params with ⟨res, t⟩
    rw [h] at he
    cases res with
    | error e2 => simp [acceptShare, h]
    | ok blob => simp at he
  · rcases h : acceptShareCompute env params with ⟨res, t⟩
    cases res with
    | error e2 => left; simp [acceptShare, h]
    | ok blob =>
      right
      refine ⟨{ state := "accepted",
                encryptedXprv := if jsTruthy blob then blob else none }, ?_⟩
      simp [acceptShare, h]

/-- Claim C1 witness: with a failing decrypt collaborator the whole trace of
`acceptShare` is the trace of the aborted compute stage. -/
theorem acceptShare_mutations_confined_witness :
    (acceptShare (envWithShare spendShare) { walletShareId := "ws1", userPassword := some "up" }).2 =
      (acceptShareCompute (envWithShare spendShare)
        { walletShareId := "ws1", userPassword := some "up" }).2 :=
  (acceptShare_mutations_confined (envWithShare spendShare)
      { walletShareId := "ws1", userPassword := some "up" }).2.1
    ⟨Err.collaborator "bad password", by rfl⟩

/-- Claim C2 counterexample: accepting a spend+view share without a
userPassword does fail with the missing-credential error, but a network
call (the share-fetch GET that precedes the permission check) has been
issued, refuting the claim that no network calls are issued. -/
theorem acceptShare_missing_password_counterexample :
    (acceptShare (envWithShare spendShare) { walletShareId := "ws1" }).1 =
        .error .missingCredential ∧
    (acceptShare (envWithShare spendShare) { walletShareId := "ws1" }).2 =
        [NetCall.getShareCall "ws1"] ∧
    [NetCall.getShareCall "ws1"] ≠ ([] : List NetCall) :=
  ⟨rfl, rfl, by decide⟩

/-- Claim C2 (amended): a share whose permissions are not view-only,
accepted without a userPassword, fails with the missing-credential error
and issues no mutating network call; the only request issued is the single
read-only share-fetch GET. -/
theorem acceptShare_missing_password_only_fetch (env : Env) (params : AcceptShareParams)
    (ws : WalletShare)
    (hs : env.shares params.walletShareId = .ok ws)
    (hperm : ((splitComma ws.permissions).length == 1
        && (splitComma ws.permissions).contains "view") = false)
    (hpw : params.userPassword = none) :
    acceptShare env params =
      (.error .missingCredential, [NetCall.getShareCall params.walletShareId]) ∧
    (acceptShare env params).2.filter NetCall.isMutating = [] := by
  have hcompute : acceptShareCompute env params =
      (.error .missingCredential, [NetCall.getShareCall params.walletShareId]) := by
    simp [acceptShareCompute, hs, hpw, jsTruthy]
    simpa using hperm
  refine ⟨?_, ?_⟩ <;> simp [acceptShare, hcompute, NetCall.isMutating]

/-- Claim C2 witness: the amended statement at the concrete spend+view
share. -/
theorem acceptShare_missing_password_only_fetch_witness :
    acceptShare (envWithShare spendShare) { walletShareId := "ws1" } =
      (.error .missingCredential, [NetCall.getShareCall "ws1"]) :=
  (acceptShare_missing_password_only_fetch (envWithShare spendShare)
      { walletShareId := "ws1" } spendShare (by rfl) (by decide) rfl).1

/-- Claim C3: a share whose capability list is exactly view, accepted
without a userPassword, succeeds: the finalize body carries state accepted
and no encryptedXprv field, the trace is the share fetch followed directly
by the finalize POST (no sharing-keychain fetch), and the outcome does not
depend on any of the key-material collaborators (cipher, BIP32 parsing,
derivation, ECDH, sharing keychain) — no key-material processing happens. -/
theorem acceptShare_view_only_shortcut (env : Env) (params : AcceptShareParams)
    (ws : WalletShare) (res : String)
    (hs : env.shares params.walletShareId = .ok ws)
    (hperm : splitComma ws.permissions = ["view"])
    (hpost : env.postShareResp params.walletShareId
        { state := "accepted", encryptedXprv := none } = .ok res) :
    acceptShare env params =
      (.ok res,
       [NetCall.getShareCall params.walletShareId,
        NetCall.postShare params.walletShareId
          { state := "accepted", encryptedXprv := none }]) ∧
    (∀ d e pb dp es sk,
       acceptShare
         { env with decrypt := d, encrypt := e, parseBIP32 := pb, derivePath := dp,
                    ecdhSecret := es, sharingKeychain := sk } params =
       acceptShare env params) := by
  have hcompute : acceptShareCompute env params =
      (.ok none, [NetCall.getShareCall params.walletShareId]) := by
    simp [acceptShareCompute, hs, hperm]
  constructor
  · simp [acceptShare, hcompute, jsTruthy, hpost]
  · intro d e pb dp es sk
    have hcompute2 : acceptShareCompute
        { env with decrypt := d, encrypt := e, parseBIP32 := pb, derivePath := dp,
                   ecdhSecret := es, sharingKeychain := sk } params =
        (.ok none, [NetCall.getShareCall params.walletShareId]) := by
      simp [acceptShareCompute, hs, hperm]
    simp [acceptShare, hcompute, hcompute2]

/-- Claim C3 witness: the view-only shortcut at the concrete view share. -/
theorem acceptShare_view_only_shortcut_witness :
    acceptShare (envWithShare viewShare) { walletShareId := "ws1" } =
      (.ok "finalized",
       [NetCall.getShareCall "ws1",
        NetCall.postShare "ws1" { state := "accepted", encryptedXprv := none }]) :=
  (acceptShare_view_only_shortcut (envWithShare viewShare) { walletShareId := "ws1" }
      viewShare "finalized" (by rfl) (by decide) (by rfl)).1

/-- Claim C4: the backup keychain private key never crosses the trust
boundary: with a supplied backupXpub the resulting backup keychain is the
public component alone; with a locally generated backup key its private
component appears only in the returned result; every keychain registration
request is either the user registration (xpub plus encrypted blob) or the
backup registration, whose body carries only the xpub and no encryptedXprv
(and, structurally, no xprv field exists in registration bodies); and the
emitted network traffic is unchanged when the generated backup private key
is replaced by any other value. -/
theorem createWallet_backup_key_confined (env : Env) (params : CreateWalletParams) :
    (∀ r, (createWalletWithKeychains env params).1 = .ok r →
       (jsTruthy params.backupXpub = true →
          r.backupKeychain =
            { xpub := params.backupXpub, xprv := none, encryptedXprv := none }) ∧
       (jsTruthy params.backupXpub = false →
          r.backupKeychain.xprv = some ((env.fresh 1).xprv))) ∧
    ((key2Params env params).encryptedXprv = none) ∧
    (∀ kp, NetCall.addKeychain kp ∈ (createWalletWithKeychains env params).2 →
       kp = key1Params env params ∨ kp = key2Params env params) ∧
    (∀ v, (createWalletWithKeychains (withFreshBackupXprv env v) params).2 =
          (createWalletWithKeychains env params).2) := by
  refine ⟨?_, rfl, ?_, ?_⟩
  · intro r hr
    cases h1 : env.addKeychainResp (key1Params env params) with
    | error e => simp [createWalletWithKeychains, h1] at hr
    | ok r1 =>
      cases h2 : env.addKeychainResp (key2Params env params) with
      | error e => simp [createWalletWithKeychains, h1, h2] at hr
      | ok r2 =>
        cases h3 : env.createBitGoResp with
        | error e => simp [createWalletWithKeychains, h1, h2, h3] at hr
        | ok kc =>
          rcases h4 : add env (walletParamsOf env params kc) with ⟨res4, t4⟩
          cases res4 with
          | error e => simp [createWalletWithKeychains, h1, h2, h3, h4] at hr
          | ok w =>
            simp [createWalletWithKeychains, h1, h2, h3, h4] at hr
            constructor
            · intro hb; simp [← hr, mkBackupKeychain, hb]
            · intro hb; simp [← hr, mkBackupKeychain, hb]
  · intro kp hmem
    cases h1 : env.addKeychainResp (key1Params env params) with
    | error e =>
      simp [createWalletWithKeychains, h1] at hmem
      exact Or.inl hmem
    | ok r1 =>
      cases h2 : env.addKeychainResp (key2Params env params) with
      | error e =>
        simp [createWalletWithKeychains, h1, h2] at hmem
        tauto
      | ok r2 =>
        cases h3 : env.createBitGoResp with
        | error e =>
          simp [createWalletWithKeychains, h1, h2, h3] at hmem
          tauto
        | ok kc =>
          have hta := add_trace_m2n3 env (walletParamsOf env params kc) rfl rfl
          rcases h4 : add env (walletParamsOf env params kc) with ⟨res4, t4⟩
          rw [h4] at hta
          have hta2 : t4 = _ := hta
          have htrace : (createWalletWithKeychains env params).2 =
              [NetCall.addKeychain (key1Params env params),
               NetCall.addKeychain (key2Params env params),
               NetCall.createBitGoKeychain] ++ t4 := by
            cases res4 <;> simp [createWalletWithKeychains, h1, h2, h3, h4]
          rw [htrace, hta2] at hmem
          simp at hmem
          tauto
  · intro v
    have hk1 : key1Params (withFreshBackupXprv env v) params = key1Params env params := by
      simp [key1Params, mkUserKeychain, withFreshBackupXprv]
    have hk2 : key2Params (withFreshBackupXprv env v) params = key2Params env params := by
      cases hb : jsTruthy params.backupXpub <;>
        simp [key2Params, mkBackupKeychain, withFreshBackupXprv, hb]
    have hwp : ∀ kc, walletParamsOf (withFreshBackupXprv env v) params kc =
        walletParamsOf env params kc := by
      intro kc
      cases hb : jsTruthy params.backupXpub <;>
        simp [walletParamsOf, mkUserKeychain, mkBackupKeychain, withFreshBackupXprv, hb]
    have he : (withFreshBackupXprv env v).addKeychainResp = env.addKeychainResp := rfl
    have hc : (withFreshBackupXprv env v).createBitGoResp = env.createBitGoResp := rfl
    have hadd : ∀ wp, add (withFreshBackupXprv env v) wp = add env wp := fun wp => rfl
    cases h1 : env.addKeychainResp (key1Params env params) with
    | error e => simp [createWalletWithKeychains, hk1, hk2, he, h1]
    | ok r1 =>
      cases h2 : env.addKeychainResp (key2Params env params) with
      | error e => simp [createWalletWithKeychains, hk1, hk2, he, h1, h2]
      | ok r2 =>
        cases h3 : env.createBitGoResp with
        | error e => simp [createWalletWithKeychains, hk1, hk2, he, hc, h1, h2, h3]
        | ok kc =>
          rcases h4 : add env (walletParamsOf env params kc) with ⟨res4, t4⟩
          have h4b : add (withFreshBackupXprv env v)
              (walletParamsOf (withFreshBackupXprv env v) params kc) = (res4, t4) := by
            rw [hadd, hwp, h4]
          cases res4 <;>
            simp [createWalletWithKeychains, hk1, hk2, he, hc, h1, h2, h3, h4, h4b]

/-- Claim C4 witness: under the concrete environment the generated backup
private key shows up in the returned result, and replacing it changes no
network request. -/
theorem createWallet_backup_key_confined_witness :
    c4Res.backupKeychain.xprv = some ((baseEnv.fresh 1).xprv) ∧
    (createWalletWithKeychains (withFreshBackupXprv baseEnv "other") { passphrase := "p" }).2 =
      (createWalletWithKeychains baseEnv { passphrase := "p" }).2 :=
  ⟨((createWallet_backup_key_confined baseEnv { passphrase := "p" }).1 c4Res (by rfl)).2 rfl,
   (createWallet_backup_key_confined baseEnv { passphrase := "p" }).2.2.2 "other"⟩

/-- Claim C5: whenever the wallet-creation POST appears in the trace of
`createWalletWithKeychains`, both keychain registrations and the service
keychain creation have succeeded and the trace is exactly those three
requests followed by the single wallet POST; failure of any earlier step
aborts before the wallet request, so no wallet is created referencing an
unregistered keychain. -/
theorem createWallet_wallet_after_keychains (env : Env) (params : CreateWalletParams) :
    ∀ b, NetCall.postWallet b ∈ (createWalletWithKeychains env params).2 →
      ∃ r1 r2 kc,
        env.addKeychainResp (key1Params env params) = .ok r1 ∧
        env.addKeychainResp (key2Params env params) = .ok r2 ∧
        env.createBitGoResp = .ok kc ∧
        (createWalletWithKeychains env params).2 =
          [NetCall.addKeychain (key1Params env params),
           NetCall.addKeychain (key2Params env params),
           NetCall.createBitGoKeychain, NetCall.postWallet b] := by
  intro b hmem
  cases h1 : env.addKeychainResp (key1Params env params) with
  | error e => simp [createWalletWithKeychains, h1] at hmem
  | ok r1 =>
    cases h2 : env.addKeychainResp (key2Params env params) with
    | error e => simp [createWalletWithKeychains, h1, h2] at hmem
    | ok r2 =>
      cases h3 : env.createBitGoResp with
      | error e => simp [createWalletWithKeychains, h1, h2, h3] at hmem
      | ok kc =>
        have hta := add_trace_m2n3 env (walletParamsOf env params kc) rfl rfl
        rcases h4 : add env (walletParamsOf env params kc) with ⟨res4, t4⟩
        rw [h4] at hta
        have hta2 : t4 = _ := hta
        have htrace : (createWalletWithKeychains env params).2 =
            [NetCall.addKeychain (key1Params env params),
             NetCall.addKeychain (key2Params env params),
             NetCall.createBitGoKeychain] ++ t4 := by
          cases res4 <;> simp [createWalletWithKeychains, h1, h2, h3, h4]
        rw [htrace, hta2] at hmem
        simp at hmem
        refine ⟨r1, r2, kc, rfl, rfl, rfl, ?_⟩
        simp [htrace, hta2, hmem]

/-- Claim C5 witness: the full four-request trace in the all-success
environment. -/
theorem createWallet_wallet_after_keychains_witness :
    ∃ r1 r2 kc,
      baseEnv.addKeychainResp (key1Params baseEnv { passphrase := "p" }) = .ok r1 ∧
      baseEnv.addKeychainResp (key2Params baseEnv { passphrase := "p" }) = .ok r2 ∧
      baseEnv.createBitGoResp = .ok kc ∧
      (createWalletWithKeychains baseEnv { passphrase := "p" }).2 =
        [NetCall.addKeychain (key1Params baseEnv { passphrase := "p" }),
         NetCall.addKeychain (key2Params baseEnv { passphrase := "p" }),
         NetCall.createBitGoKeychain,
         NetCall.postWallet
           { label := none, m := 2, n := 3,
             keychains := [ { xpub := some "uxpub" }, { xpub := some "bxpub" },
                            { xpub := some "bgxpub" } ],
             enterprise := none }] :=
  createWallet_wallet_after_keychains baseEnv { passphrase := "p" }
    { label := none, m := 2, n := 3,
      keychains := [ { xpub := some "uxpub" }, { xpub := some "bxpub" },
                     { xpub := some "bgxpub" } ],
      enterprise := none }
    (by decide)

/-- Claim C6: any `add` call with m different from 2 or n different from 3
(keychains being a list and m, n numbers by typing) fails with the
unsupported-multisig error — classified by the spec error taxonomy as
InvalidArgumentError — with an empty trace, i.e. before any network call. -/
theorem add_rejects_unsupported_multisig (env : Env) (params : AddParams)
    (h : params.m ≠ 2 ∨ params.n ≠ 3) :
    add env params = (.error .unsupportedMultisig, []) ∧
    isInvalidArgumentError Err.unsupportedMultisig := by
  refine ⟨?_, trivial⟩
  rcases h with h | h <;> simp [add, h]

/-- Claim C6 witness: the rejection at m=3, n=5. -/
theorem add_rejects_unsupported_multisig_witness :
    add baseEnv { m := 3, n := 5, keychains := [] } = (.error .unsupportedMultisig, []) ∧
    isInvalidArgumentError Err.unsupportedMultisig :=
  add_rejects_unsupported_multisig baseEnv { m := 3, n := 5, keychains := [] }
    (Or.inl (by decide))

/-- Claim C7: a successful `createWalletWithKeychains` with no backupXpub
returns a user keychain whose encryptedXprv is the encryption of the fresh
user xprv under the supplied passphrase (so a round-tripping cipher
recovers that xprv); the user registration request carries exactly the user
xpub and that encrypted blob (no plaintext xprv field exists); and the
wallet-creation request carries exactly the three public keys of the user,
backup and service keychains. -/
theorem createWallet_composition (env : Env) (params : CreateWalletParams)
    (r : CreateWalletResult)
    (hb : jsTruthy params.backupXpub = false)
    (hok : (createWalletWithKeychains env params).1 = .ok r)
    (hrt : env.decrypt params.passphrase (env.encrypt params.passphrase ((env.fresh 0).xprv)) =
        .ok ((env.fresh 0).xprv)) :
    r.userKeychain.encryptedXprv = some (env.encrypt params.passphrase ((env.fresh 0).xprv)) ∧
    (∀ blob, r.userKeychain.encryptedXprv = some blob →
        env.decrypt params.passphrase blob = .ok ((env.fresh 0).xprv)) ∧
    NetCall.addKeychain
        { xpub := some ((env.fresh 0).xpub),
          encryptedXprv := some (env.encrypt params.passphrase ((env.fresh 0).xprv)) }
      ∈ (createWalletWithKeychains env params).2 ∧
    (∃ kc b, env.createBitGoResp = .ok kc ∧
       NetCall.postWallet b ∈ (createWalletWithKeychains env params).2 ∧
       b.keychains =
         [ { xpub := some ((env.fresh 0).xpub) },
           { xpub := some ((env.fresh 1).xpub) },
           { xpub := kc.xpub } ] ∧
       b.keychains.length = 3) := by
  cases h1 : env.addKeychainResp (key1Params env params) with
  | error e => simp [createWalletWithKeychains, h1] at hok
  | ok r1 =>
    cases h2 : env.addKeychainResp (key2Params env params) with
    | error e => simp [createWalletWithKeychains, h1, h2] at hok
    | ok r2 =>
      cases h3 : env.createBitGoResp with
      | error e => simp [createWalletWithKeychains, h1, h2, h3] at hok
      | ok kc =>
        have hta := add_trace_m2n3 env (walletParamsOf env params kc) rfl rfl
        rcases h4 : add env (walletParamsOf env params kc) with ⟨res4, t4⟩
        rw [h4] at hta
        have hta2 : t4 = _ := hta
        cases res4 with
        | error e => simp [createWalletWithKeychains, h1, h2, h3, h4] at hok
        | ok w =>
          simp [createWalletWithKeychains, h1, h2, h3, h4] at hok
          have htrace : (createWalletWithKeychains env params).2 =
              [NetCall.addKeychain (key1Params env params),
               NetCall.addKeychain (key2Params env params),
               NetCall.createBitGoKeychain] ++ t4 := by
            simp [createWalletWithKeychains, h1, h2, h3, h4]
          refine ⟨?_, ?_, ?_, ?_⟩
          · simp [← hok, mkUserKeychain]
          · intro blob hblob
            rw [← hok] at hblob
            simp [mkUserKeychain] at hblob
            rw [← hblob]
            exact hrt
          · rw [htrace]
            simp [key1Params, mkUserKeychain]
          · refine ⟨kc,
              { label := (walletParamsOf env params kc).label,
                m := (walletParamsOf env params kc).m,
                n := (walletParamsOf env params kc).n,
                keychains :=
                  List.map (fun k => { xpub := k.xpub }) (walletParamsOf env params kc).keychains,
                enterprise :=
                  if jsTruthy (walletParamsOf env params kc).enterprise = true
                  then (walletParamsOf env params kc).enterprise else none },
              rfl, ?_, ?_, ?_⟩
            · rw [htrace, hta2]
              simp
            · simp [walletParamsOf, mkUserKeychain, mkBackupKeychain, hb]
            · simp [walletParamsOf]

/-- Claim C7 witness: the composition facts at the concrete round-tripping
environment. -/
theorem createWallet_composition_witness :
    c7Res.userKeychain.encryptedXprv =
      some (c7Env.encrypt "p@ss" ((c7Env.fresh 0).xprv)) ∧
    c7Env.decrypt "p@ss" "E|p@ss|uxprv" = .ok "uxprv" ∧
    (∃ kc b, c7Env.createBitGoResp = .ok kc ∧
       NetCall.postWallet b ∈ (createWalletWithKeychains c7Env { passphrase := "p@ss" }).2 ∧
       b.keychains =
         [ { xpub := some ((c7Env.fresh 0).xpub) },
           { xpub := some ((c7Env.fresh 1).xpub) },
           { xpub := kc.xpub } ] ∧
       b.keychains.length = 3) := by
  have h := createWallet_composition c7Env { passphrase := "p@ss" } c7Res rfl (by rfl) (by rfl)
  exact ⟨h.1, h.2.1 "E|p@ss|uxprv" (by rfl), h.2.2.2⟩

/-- Claim C8: when the spending-capable pipeline of `acceptShare` reaches
the re-encryption step, the recovered wallet key is re-encrypted under the
value of newWalletPassphrase when one is supplied (truthy), and under
userPassword when newWalletPassphrase is absent, and that blob is exactly
the encryptedXprv carried by the finalize POST. -/
theorem acceptShare_reencrypt_password_choice (env : Env) (params : AcceptShareParams)
    (ws : WalletShare) (up sk xprv root ext secret wxprv : String)
    (hs : env.shares params.walletShareId = .ok ws)
    (hperm : ((splitComma ws.permissions).length == 1
        && (splitComma ws.permissions).contains "view") = false)
    (hup : params.userPassword = some up) (hupne : up ≠ "")
    (hskc : env.sharingKeychain = .ok { encryptedXprv := some sk }) (hskne : sk ≠ "")
    (hdec1 : env.decrypt up sk = .ok xprv)
    (hparse : env.parseBIP32 xprv = .ok root)
    (hderive : env.derivePath root ws.keychain.path = .ok ext)
    (hsecret : env.ecdhSecret ext ws.keychain.fromPubKey = .ok secret)
    (hdec2 : env.decrypt secret ws.keychain.encryptedXprv = .ok wxprv) :
    (acceptShareCompute env params).1 =
      .ok (some (env.encrypt (reencryptPassword params) wxprv)) ∧
    (params.newWalletPassphrase = none → reencryptPassword params = up) ∧
    (∀ s, params.newWalletPassphrase = some s → s ≠ "" → reencryptPassword params = s) ∧
    (env.encrypt (reencryptPassword params) wxprv ≠ "" →
      (acceptShare env params).2 =
        [NetCall.getShareCall params.walletShareId, NetCall.getSharingKeychainCall,
         NetCall.postShare params.walletShareId
           { state := "accepted",
             encryptedXprv := some (env.encrypt (reencryptPassword params) wxprv) }]) := by
  have hcompute : acceptShareCompute env params =
      (.ok (some (env.encrypt (reencryptPassword params) wxprv)),
       [NetCall.getShareCall params.walletShareId, NetCall.getSharingKeychainCall]) := by
    simp [acceptShareCompute, hs, hup, hskc, hdec1, hparse, hderive, hsecret, hdec2,
          jsTruthy, hupne, hskne]
    simpa using hperm
  refine ⟨by simp [hcompute], ?_, ?_, ?_⟩
  · intro hn; simp [reencryptPassword, hn, jsTruthy, hup]
  · intro s hsome hne; simp [reencryptPassword, hsome, jsTruthy, hne]
  · intro hne
    simp [acceptShare, hcompute, jsTruthy, hne]

/-- Claim C8 witness: running the whole pipeline with a supplied
newWalletPassphrase np produces a finalize POST carrying the blob encrypted
under np. -/
theorem acceptShare_reencrypt_password_choice_witness :
    (acceptShare c8Env c8Params).2 =
      [NetCall.getShareCall "ws1", NetCall.getSharingKeychainCall,
       NetCall.postShare "ws1" { state := "accepted", encryptedXprv := some "E|np|WX" }] :=
  (acceptShare_reencrypt_password_choice c8Env c8Params spendShare
      "up" "encSX" "SX" "SX" "SX/m/0/0" "SECRET" "WX"
      (by rfl) (by decide) rfl (by decide) (by rfl) (by decide)
      (by rfl) (by rfl) (by rfl) (by rfl) (by rfl)).2.2.2 (by decide)

/-- Claim C9: `add` transmits each caller-supplied keychain entry reduced to
its xpub field only, and the outcome of `add` (payload included) is
independent of every other field of the entries: two parameter records
agreeing on label, m, n, enterprise and the xpub projection of their
keychains produce identical calls. -/
theorem add_sends_only_xpubs (env : Env) (params : AddParams) :
    (∀ b, NetCall.postWallet b ∈ (add env params).2 →
       b.keychains = params.keychains.map fun k => { xpub := k.xpub }) ∧
    (∀ params2 : AddParams,
       params2.label = params.label → params2.m = params.m → params2.n = params.n →
       params2.enterprise = params.enterprise →
       params2.keychains.map (fun k => k.xpub) = params.keychains.map (fun k => k.xpub) →
       add env params2 = add env params) := by
  constructor
  · intro b hmem
    by_cases hg : (params.m != 2 || params.n != 3) = true
    · simp [add, hg] at hmem
    · simp [add, hg] at hmem
      simp [hmem]
  · intro params2 hl hm hn he hmap
    have hk : params2.keychains.map (fun k => ({ xpub := k.xpub } : SentKeychain)) =
        params.keychains.map (fun k => ({ xpub := k.xpub } : SentKeychain)) := by
      have h2 := congrArg (List.map (fun x => ({ xpub := x } : SentKeychain))) hmap
      simpa [List.map_map, Function.comp] using h2
    simp only [add, hl, hm, hn, he, hk]

/-- Claim C9 witness: stripping a plaintext xprv from a keychain entry
leaves the entire `add` call unchanged. -/
theorem add_sends_only_xpubs_witness :
    add baseEnv c9ParamsB = add baseEnv c9ParamsA :=
  (add_sends_only_xpubs baseEnv c9ParamsA).2 c9ParamsB rfl rfl rfl rfl rfl

/-- Claim C10: every share-finalization POST issued by `acceptShare` goes to
the accepted share id with state exactly accepted, and its body carries an
encryptedXprv field if and only if the key-transfer branch produced a
re-encrypted blob (given that the cipher never outputs the empty string). -/
theorem acceptShare_finalize_payload (env : Env) (params : AcceptShareParams)
    (hE : ∀ p i, env.encrypt p i ≠ "") :
    ∀ sid body, NetCall.postShare sid body ∈ (acceptShare env params).2 →
      sid = params.walletShareId ∧ body.state = "accepted" ∧
      (body.encryptedXprv.isSome = true ↔
        ∃ b, (acceptShareCompute env params).1 = .ok (some b)) := by
  intro sid body hmem
  rcases h : acceptShareCompute env params with ⟨res, t⟩
  have ht : t = [NetCall.getShareCall params.walletShareId] ∨
      t = [NetCall.getShareCall params.walletShareId, NetCall.getSharingKeychainCall] := by
    have h2 := acceptShareCompute_trace env params
    rw [h] at h2; exact h2
  have htnopost : NetCall.postShare sid body ∉ t := by
    rcases ht with h2 | h2 <;> subst h2 <;> simp
  cases res with
  | error e =>
    simp [acceptShare, h] at hmem
    exact absurd hmem htnopost
  | ok blob =>
    simp [acceptShare, h] at hmem
    rcases hmem with hmem | hmem
    · exact absurd hmem htnopost
    · obtain ⟨hsid, hbody⟩ := hmem
      subst hsid
      subst hbody
      refine ⟨rfl, rfl, ?_⟩
      cases blob with
      | none => simp [jsTruthy, h]
      | some b =>
        have hb : ∃ p d, b = env.encrypt p d := by
          apply acceptShareCompute_ok_some env params b
          rw [h]
        obtain ⟨p, d, hb⟩ := hb
        have hbne : b ≠ "" := by rw [hb]; exact hE p d
        simp [jsTruthy, hbne, h]

/-- Claim C10 witness: the finalize POST of a view-only acceptance carries
state accepted and no encryptedXprv, matching the absence of a produced
blob. -/
theorem acceptShare_finalize_payload_witness :
    "ws1" = ({ walletShareId := "ws1" } : AcceptShareParams).walletShareId ∧
    ({ state := "accepted", encryptedXprv := none } : SharePostBody).state = "accepted" ∧
    ((({ state := "accepted", encryptedXprv := none } : SharePostBody).encryptedXprv.isSome = true) ↔
      ∃ b, (acceptShareCompute (envWithShare viewShare)
              { walletShareId := "ws1" }).1 = .ok (some b)) :=
  acceptShare_finalize_payload (envWithShare viewShare) { walletShareId := "ws1" }
    (fun p i => encE_ne_empty p i)
    "ws1" { state := "accepted", encryptedXprv := none } (by decide)

end Wallets
